import Mathlib

/-!
Verification of the mapping-method synthesizer of `dataclass-mapper`
(`dataclass_mapper/mapping_method.py`).

The synthesizer builds, per (source class, target class) pair, the source
code of a `convert` method: a list of statement lines that fill a dict `d`
with values taken from the source instance, followed by a single return
statement constructing the target class from `d`.

The embedding keeps the emitted statements in a structured form (`Line`,
`PExpr`) together with a renderer producing exactly the text the Python
code emits, so that both the syntactic claims (which lines are emitted)
and the semantic claims (what the emitted code does at call time) can be
stated.  Call-time behaviour is given by a small interpreter over the
emitted lines; Python exceptions are modelled by `Option`.
-/

namespace DataclassMapper

/-- Modelled from the spec: `classmeta.py` is not part of the sources.  The
spec (§3) requires a tag distinguishing a generic record kind from the kind
that tracks which optional fields were explicitly set; the synthesizer code
compares this tag against `DataclassType.PYDANTIC`. -/
inductive DataclassType where
  | DATACLASS
  | PYDANTIC
deriving DecidableEq, Repr

/-- Python type expressions as far as the synthesizer inspects them: it
compares types for equality, asks for `cls.__name__`, and uses
`get_origin`/`get_args` to recognise `list[T]`. -/
inductive PType where
  | scalar (n : String)
  | cls (n : String)
  | list (t : PType)
deriving DecidableEq, Repr

/-- The `__name__` of a type: classes and scalars carry their name, a
parametrised `list[T]` has name `list`. -/
def PType.pyName : PType → String
  | .scalar n => n
  | .cls n => n
  | .list _ => "list"

/-- `get_origin(t) is list` of the source code. -/
def PType.isList : PType → Bool
  | .list _ => true
  | _ => false

/-- `get_args(t)[0]` of the source code, total on the guarded uses (it is
only consulted when the type is a parametrised list). -/
def PType.arg0 : PType → PType
  | .list t => t
  | t => t

/-- Field metadata, as consumed by the synthesizer: name, declared type,
nullability and required-ness.  (`fieldmeta.py` itself is not part of the
sources; these are exactly the attributes the synthesizer reads, per spec
§3.) -/
structure FieldMeta where
  name : String
  type : PType
  allow_none : Bool
  required : Bool
deriving DecidableEq, Repr

/-- Modelled from the spec: `fieldmeta.py` is absent from the sources; the
spec (§4.1.2 row 3) equates `disallow_none` with the negation of
`allow_none`. -/
def FieldMeta.disallow_none (f : FieldMeta) : Bool := !f.allow_none

/-- Modelled from the spec: the textual form of a field used in the
"cannot be converted" diagnostic; the spec (§7) only requires that the
message name the field, so the field renders as its name. -/
def FieldMeta.str (f : FieldMeta) : String := f.name

/-- Class metadata, as consumed by the synthesizer: the class name used in
the generated signature and diagnostics, the alias name used by the
constructor call, and the record-kind tag. (`classmeta.py` is absent from
the sources; these are exactly the attributes the synthesizer reads.) -/
structure ClassMeta where
  name : String
  alias_name : String
  _type : DataclassType
deriving DecidableEq, Repr

/-- Runtime values of the mapped instances.  `obj` carries the fields of a
nested record instance together with its set of explicitly provided field
names; `none` is Python's `None`. -/
inductive Value where
  | none
  | int (n : Int)
  | str (s : String)
  | obj (tyName : String) (fields : List (String × Value)) (fieldsSet : List String)
  | vlist (elems : List Value)

/-- The `v is None` test of the generated code. -/
def Value.isNone : Value → Bool
  | .none => true
  | _ => false

/-- A source instance at call time: its attribute values and, for the
explicit-set-tracking kind, the `__fields_set__` collection. -/
structure Inst where
  fields : List (String × Value)
  fields_set : List String

/-- A user-supplied origin callable, by arity: the synthesizer
distinguishes zero-parameter functions from one-parameter ones via
`len(signature(function).parameters)`. -/
inductive PyFunction where
  | fn0 (f : Unit → Value)
  | fn1 (f : Inst → Value)

/-- A registered helper: `staticmethod(function)` for the zero-argument
case, the plain function (receiving `self`) otherwise. -/
inductive RegMethod where
  | staticm (f : PyFunction)
  | bound (f : PyFunction)

/-- Calling a registered helper as `self.<name>()`: a static helper is
invoked with no arguments, a bound one receives the instance; an arity
mismatch is a call-time exception. -/
def callRegMethod (inst : Inst) : RegMethod → Option Value
  | .staticm (.fn0 f) => some (f ())
  | .staticm (.fn1 _) => Option.none
  | .bound (.fn1 f) => some (f inst)
  | .bound (.fn0 _) => Option.none

/-- The right-hand-side expressions the synthesizer emits. -/
inductive PExpr where
  | selfField (n : String)
  | mapToField (n : String) (funcName : String)
  | listComp (funcName : String) (n : String)
  | noneGuard (n : String) (e : PExpr)
  | callSelf (m : String)
deriving DecidableEq, Repr

/-- The statement lines the synthesizer emits. -/
inductive Line where
  | defConvert (targetName : String)
  | dInit
  | ifNotNone (n : String)
  | ifSet (n : String)
  | assign (indent : Nat) (key : String) (rhs : PExpr)
deriving DecidableEq, Repr

/-- Rendering of an emitted expression, matching the f-strings of the
source code. -/
def PExpr.render : PExpr → String
  | .selfField n => "self." ++ n
  | .mapToField n fn => "self." ++ n ++ "." ++ fn ++ "()"
  | .listComp fn n => "[x." ++ fn ++ "() for x in self." ++ n ++ "]"
  | .noneGuard n e => "None if self." ++ n ++ " is None else " ++ e.render
  | .callSelf m => "self." ++ m ++ "()"

/-- Rendering of an emitted line, matching the f-strings of the source
code. -/
def Line.render : Line → String
  | .defConvert tn => "def convert(self) -> \"" ++ tn ++ "\":"
  | .dInit => "    d = \x7b\x7d"
  | .ifNotNone n => "    if self." ++ n ++ " is not None:"
  | .ifSet n => "    if \x27" ++ n ++ "\x27 in self.__fields_set__:"
  | .assign indent key rhs =>
      String.mk (List.replicate indent ' ') ++ "d[\"" ++ key ++ "\"] = " ++ rhs.render

/-- `get_map_to_func_name` of the source code. -/
def get_map_to_func_name (cls : PType) : String := "_map_to_" ++ cls.pyName

/-- The working state of `MappingMethodSourceCode`: the two class
descriptions, the accumulated statement lines, and the registry of
generated helper names. -/
structure MappingMethodSourceCode where
  source_cls : ClassMeta
  target_cls : ClassMeta
  lines : List Line
  methods : List (String × RegMethod)

namespace MappingMethodSourceCode

/-- `MappingMethodSourceCode.__init__`: the builder starts with the
`def convert` header and the empty-dict initialisation. -/
def init (source_cls target_cls : ClassMeta) : MappingMethodSourceCode :=
  { source_cls := source_cls
    target_cls := target_cls
    lines := [.defConvert target_cls.name, .dInit]
    methods := [] }

/-- `MappingMethodSourceCode.add_assignment`. -/
def add_assignment (code : MappingMethodSourceCode) (target source : FieldMeta)
    (only_if_not_None : Bool) (only_if_set : Bool) : MappingMethodSourceCode :=
  let guards :=
    (if only_if_not_None then [Line.ifNotNone source.name] else [])
      ++ (if only_if_set then [Line.ifSet source.name] else [])
  let indent := if only_if_not_None || only_if_set then 8 else 4
  { code with
      lines := code.lines ++ guards ++ [.assign indent target.name (.selfField source.name)] }

/-- `MappingMethodSourceCode.add_recursive`. -/
def add_recursive (code : MappingMethodSourceCode) (target source : FieldMeta)
    (only_if_set : Bool) (if_None : Bool) : MappingMethodSourceCode :=
  let right0 : PExpr := .mapToField source.name (get_map_to_func_name target.type)
  let right := if if_None then PExpr.noneGuard source.name right0 else right0
  if only_if_set then
    { code with lines := code.lines ++ [.ifSet source.name, .assign 8 target.name right] }
  else
    { code with lines := code.lines ++ [.assign 4 target.name right] }

/-- `MappingMethodSourceCode.add_recursive_list`. -/
def add_recursive_list (code : MappingMethodSourceCode) (target source : FieldMeta)
    (if_None : Bool) (only_if_not_None : Bool) (only_if_set : Bool) :
    MappingMethodSourceCode :=
  let right0 : PExpr := .listComp (get_map_to_func_name target.type.arg0) source.name
  let guards :=
    (if only_if_not_None then [Line.ifNotNone source.name] else [])
      ++ (if only_if_set then [Line.ifSet source.name] else [])
  let indent := if only_if_not_None || only_if_set then 8 else 4
  let right := if if_None then PExpr.noneGuard source.name right0 else right0
  { code with lines := code.lines ++ guards ++ [.assign indent target.name right] }

/-- `MappingMethodSourceCode.add_function_call`.  The Python code draws a
fresh identifier from `uuid4().hex`; the embedding takes that hex string as
an explicit oracle argument. -/
def add_function_call (code : MappingMethodSourceCode) (target : FieldMeta)
    (function : PyFunction) (freshHex : String) : MappingMethodSourceCode :=
  let name := "_" ++ freshHex
  let registered :=
    match function with
    | .fn0 f => RegMethod.staticm (.fn0 f)
    | .fn1 f => RegMethod.bound (.fn1 f)
  { code with
      methods := code.methods ++ [(name, registered)]
      lines := code.lines ++ [.assign 4 target.name (.callSelf name)] }

/-- `MappingMethodSourceCode.is_mappable_to`: whether the source type has
the `_map_to_<TargetName>` attribute.  `hasattr` is the capability supplied
by the surrounding registry (spec §6). -/
def is_mappable_to (hasattr : PType → String → Bool) (SourceCls TargetCls : PType) : Bool :=
  hasattr SourceCls (get_map_to_func_name TargetCls)

/-- The origin argument of `add_mapping`: either a field of the source
class or a user-supplied function (the `isfunction` test of the source
code becomes the constructor distinction). -/
inductive Origin where
  | field (f : FieldMeta)
  | func (f : PyFunction)

/-- `MappingMethodSourceCode.add_mapping`: the strategy decision.  A raised
`TypeError` becomes `Except.error` carrying the message text. -/
def add_mapping (hasattr : PType → String → Bool) (code : MappingMethodSourceCode)
    (target : FieldMeta) (source : Origin) (freshHex : String) :
    Except String MappingMethodSourceCode :=
  match source with
  | .func f => .ok (code.add_function_call target f freshHex)
  | .field source =>
    if target.type = source.type ∧ ¬(source.allow_none ∧ target.disallow_none) then
      if source.allow_none ∧ target.allow_none ∧ ¬target.required
          ∧ code.source_cls._type = code.target_cls._type
          ∧ code.target_cls._type = DataclassType.PYDANTIC then
        .ok (code.add_assignment target source false true)
      else
        .ok (code.add_assignment target source false false)
    else if target.type = source.type ∧ source.allow_none ∧ target.disallow_none
        ∧ ¬target.required then
      .ok (code.add_assignment target source true false)
    else if is_mappable_to hasattr source.type target.type
        ∧ ¬(source.allow_none ∧ target.disallow_none) then
      if source.allow_none ∧ target.allow_none ∧ ¬target.required
          ∧ code.source_cls._type = code.target_cls._type
          ∧ code.target_cls._type = DataclassType.PYDANTIC then
        .ok (code.add_recursive target source true true)
      else
        .ok (code.add_recursive target source false source.allow_none)
    else if source.type.isList ∧ target.type.isList
        ∧ is_mappable_to hasattr source.type.arg0 target.type.arg0
        ∧ ¬(source.allow_none ∧ target.disallow_none) then
      if source.allow_none ∧ target.allow_none ∧ ¬target.required
          ∧ code.source_cls._type = code.target_cls._type
          ∧ code.target_cls._type = DataclassType.PYDANTIC then
        .ok (code.add_recursive_list target source source.allow_none false true)
      else
        .ok (code.add_recursive_list target source source.allow_none false false)
    else if source.type.isList ∧ target.type.isList
        ∧ is_mappable_to hasattr source.type.arg0 target.type.arg0
        ∧ source.allow_none ∧ target.disallow_none ∧ ¬target.required then
      .ok (code.add_recursive_list target source source.allow_none true false)
    else
      .error (source.str ++ " of \x27" ++ code.source_cls.name
        ++ "\x27 cannot be converted to " ++ target.str)

/-- `MappingMethodSourceCode.__str__`: the accumulated lines followed by
the single return statement constructing the target class. -/
def toStr (code : MappingMethodSourceCode) : String :=
  String.intercalate "\n"
    ((code.lines.map Line.render)
      ++ ["    return " ++ code.target_cls.alias_name ++ "(**d)"])

end MappingMethodSourceCode

/-- The lines of a synthesis result, `[]` for a raised error.  Used to
state claims about what `add_mapping` emits. -/
def linesOf : Except String MappingMethodSourceCode → List Line
  | .ok c => c.lines
  | .error _ => []

/-! ### Call-time semantics of the emitted code -/

/-- Environment of nested conversion routines: calling
`v._map_to_T()` on a record value yields `env "_map_to_T" v`. -/
def MapEnv := String → Value → Value

/-- Invoking `v.<funcName>()` on a value: only record instances have the
generated map methods; on anything else (in particular `None`) the call is
an exception. -/
def callMapFunc (env : MapEnv) (funcName : String) : Value → Option Value
  | .obj tn fs fset => some (env funcName (.obj tn fs fset))
  | _ => Option.none

/-- Attribute lookup `self.<n>` on the source instance. -/
def Inst.attr (inst : Inst) (n : String) : Option Value :=
  inst.fields.lookup n

/-- Evaluation of an emitted right-hand side on a source instance.
`Option.none` models a raised exception. -/
def evalPExpr (env : MapEnv) (methods : List (String × RegMethod)) (inst : Inst) :
    PExpr → Option Value
  | .selfField n => inst.attr n
  | .mapToField n fn => (inst.attr n).bind (callMapFunc env fn)
  | .listComp fn n =>
      (inst.attr n).bind fun v =>
        match v with
        | .vlist vs => (vs.mapM (callMapFunc env fn)).map Value.vlist
        | _ => Option.none
  | .noneGuard n e =>
      (inst.attr n).bind fun v =>
        if v.isNone then some Value.none else evalPExpr env methods inst e
  | .callSelf m => (methods.lookup m).bind (callRegMethod inst)

/-- Python dict assignment `d[k] = v`: overwrite in place if the key is
present, append otherwise. -/
def setKey (d : List (String × Value)) (k : String) (v : Value) : List (String × Value) :=
  if d.any (fun p => p.1 = k) then
    d.map (fun p => if p.1 = k then (k, v) else p)
  else
    d ++ [(k, v)]

/-- Execution of the emitted statement lines over the dict `d`.  An `if`
line guards exactly the assignment the builder appends immediately after
it (the indented one), as in the generated code.  `Option.none` models a
raised exception. -/
def execLines (env : MapEnv) (methods : List (String × RegMethod)) (inst : Inst) :
    List Line → List (String × Value) → Option (List (String × Value))
  | [], d => some d
  | .defConvert _ :: rest, d => execLines env methods inst rest d
  | .dInit :: rest, _ => execLines env methods inst rest []
  | .assign _ k rhs :: rest, d =>
      (evalPExpr env methods inst rhs).bind fun v =>
        execLines env methods inst rest (setKey d k v)
  | .ifNotNone n :: .assign _ k rhs :: rest, d =>
      (inst.attr n).bind fun v =>
        if v.isNone then execLines env methods inst rest d
        else
          (evalPExpr env methods inst rhs).bind fun w =>
            execLines env methods inst rest (setKey d k w)
  | .ifSet n :: .assign _ k rhs :: rest, d =>
      if n ∈ inst.fields_set then
        (evalPExpr env methods inst rhs).bind fun w =>
          execLines env methods inst rest (setKey d k w)
      else execLines env methods inst rest d
  | .ifNotNone n :: rest, d =>
      (inst.attr n).bind fun _ => execLines env methods inst rest d
  | .ifSet _ :: rest, d => execLines env methods inst rest d

/-- The observable result of the generated routine: the constructor that
is invoked and the keyword arguments it receives. -/
structure Constructed where
  ctor : String
  kwargs : List (String × Value)

/-- Running the finalized routine on a source instance: execute the
emitted statements to build `d`, then construct the target class through
its alias name with the entries of `d` as named arguments. -/
def runConvert (env : MapEnv) (code : MappingMethodSourceCode) (inst : Inst) :
    Option Constructed :=
  (execLines env code.methods inst code.lines []).map fun d =>
    { ctor := code.target_cls.alias_name, kwargs := d }

/-! ### Builder call sequences -/

/-- One call on a `MappingMethodSourceCode` builder, with all arguments
the caller supplies (the `freshHex` oracle stands for `uuid4().hex`). -/
inductive BuilderOp where
  | assignment (target source : FieldMeta) (only_if_not_None only_if_set : Bool)
  | recursive (target source : FieldMeta) (only_if_set if_None : Bool)
  | recursiveList (target source : FieldMeta) (if_None only_if_not_None only_if_set : Bool)
  | functionCall (target : FieldMeta) (f : PyFunction) (freshHex : String)
  | mapping (hasattr : PType → String → Bool) (target : FieldMeta)
      (src : MappingMethodSourceCode.Origin) (freshHex : String)

/-- Applying one builder call.  A raised `TypeError` of `add_mapping`
leaves the builder state untouched (the raise happens before any line is
appended). -/
def applyOp (code : MappingMethodSourceCode) : BuilderOp → MappingMethodSourceCode
  | .assignment t s a b => code.add_assignment t s a b
  | .recursive t s a b => code.add_recursive t s a b
  | .recursiveList t s a b c => code.add_recursive_list t s a b c
  | .functionCall t f hex => code.add_function_call t f hex
  | .mapping ha t src hex =>
      match code.add_mapping ha t src hex with
      | .ok c => c
      | .error _ => code

/-- Applying a sequence of builder calls in order. -/
def applyOps (code : MappingMethodSourceCode) (ops : List BuilderOp) :
    MappingMethodSourceCode :=
  ops.foldl applyOp code

/-- Synthesizing a whole routine: one `add_mapping` call per
(target field, origin) pair, with the `uuid4().hex` oracle values supplied
as a list consumed one entry per call; the first raised error aborts the
synthesis, as in Python. -/
def buildMappingsAux (hasattr : PType → String → Bool) :
    MappingMethodSourceCode → List (FieldMeta × MappingMethodSourceCode.Origin) →
    List String → Except String MappingMethodSourceCode
  | code, [], _ => .ok code
  | code, (t, o) :: ps, names =>
    match code.add_mapping hasattr t o (names.headD "") with
    | .ok c => buildMappingsAux hasattr c ps names.tail
    | .error e => .error e

/-- Synthesis for a (source class, target class) pair from scratch. -/
def buildMappings (hasattr : PType → String → Bool) (S T : ClassMeta)
    (pairs : List (FieldMeta × MappingMethodSourceCode.Origin)) (names : List String) :
    Except String MappingMethodSourceCode :=
  buildMappingsAux hasattr (MappingMethodSourceCode.init S T) pairs names

/-! ### Concrete fixtures used to instantiate theorems -/

/-- A Pydantic-kind source class. -/
def exPydFoo : ClassMeta := ⟨"Foo", "Foo", .PYDANTIC⟩

/-- A Pydantic-kind target class whose construction goes through an alias. -/
def exPydBar : ClassMeta := ⟨"Bar", "BarAlias", .PYDANTIC⟩

/-- An attribute oracle under which no type has any map-to method. -/
def exNoAttr : PType → String → Bool := fun _ _ => false

/-- An attribute oracle registering exactly a routine `Bar2 → Bar`. -/
def exBarAttr : PType → String → Bool :=
  fun t s => decide (t = PType.cls "Bar2") && decide (s = "_map_to_Bar")

/-- A conversion-routine environment that passes values through. -/
def exIdEnv : MapEnv := fun _ v => v

/-- An attribute oracle registering exactly a routine `STag → TTag`
between list element types. -/
def exTagAttr : PType → String → Bool :=
  fun t s => decide (t = PType.cls "STag") && decide (s = "_map_to_TTag")

/-- A conversion-routine environment whose routines retag record values,
so that their application is observable. -/
def exTagEnv : MapEnv := fun _ v =>
  match v with
  | .obj _ fs fset => .obj "TTag" fs fset
  | w => w

/-- A source instance with two scalar fields, both explicitly set. -/
def exInst : Inst := ⟨[("x", .int 42), ("y", .str "answer")], ["x", "y"]⟩

/-- A required non-null `int` field named `x`, present in source and
target shape alike (spec Scenario A). -/
def exFieldX : FieldMeta := ⟨"x", .scalar "int", false, true⟩

/-- A required non-null `str` field named `y` (spec Scenario A). -/
def exFieldY : FieldMeta := ⟨"y", .scalar "str", false, true⟩

/-- Scenario A of the spec: a two-field record of identical shape mapped
field by field, then run on `x=42, y="answer"`. -/
def exScenarioA : Except String (Option Constructed) :=
  ((MappingMethodSourceCode.init exPydFoo exPydBar).add_mapping exNoAttr exFieldX
      (.field exFieldX) "a").bind (fun c =>
    (c.add_mapping exNoAttr exFieldY (.field exFieldY) "b")) |>.map
    (fun c => runConvert exIdEnv c exInst)

/-! ### The disputed claims, formalized exactly as stated -/

/-- Claim C1 exactly as stated: whenever the types agree, source
nullability does not exceed target nullability, both kinds are the
explicit-set-tracking kind and the target is nullable and not required,
`add_mapping` emits the `__fields_set__`-guarded assignment. -/
def claim1Stated : Prop :=
  ∀ (ha : PType → String → Bool) (S T : ClassMeta) (target source : FieldMeta) (hex : String),
    target.type = source.type →
    ¬(source.allow_none ∧ target.disallow_none) →
    S._type = DataclassType.PYDANTIC → T._type = DataclassType.PYDANTIC →
    target.allow_none = true → target.required = false →
    linesOf (MappingMethodSourceCode.add_mapping ha (MappingMethodSourceCode.init S T)
        target (.field source) hex)
      = (MappingMethodSourceCode.init S T).lines
        ++ [.ifSet source.name, .assign 8 target.name (.selfField source.name)]

/-- The right-hand side claim C2 predicts: the nested-routine invocation,
null-guarded when the source is nullable. -/
def claim2Rhs (target source : FieldMeta) : PExpr :=
  if source.allow_none then
    .noneGuard source.name (.mapToField source.name (get_map_to_func_name target.type))
  else
    .mapToField source.name (get_map_to_func_name target.type)

/-- Claim C2 exactly as stated: whenever a conversion routine exists from
the source type to the target type and source nullability does not exceed
target nullability, `add_mapping` emits the recursive invocation — behind
the explicit-set guard when both kinds track explicit-set and the target
is nullable and not required, unguarded otherwise — and the emitted
expression maps null to null when the source is nullable. -/
def claim2Stated : Prop :=
  ∀ (ha : PType → String → Bool) (S T : ClassMeta) (target source : FieldMeta) (hex : String),
    MappingMethodSourceCode.is_mappable_to ha source.type target.type = true →
    ¬(source.allow_none ∧ target.disallow_none) →
    ((S._type = DataclassType.PYDANTIC ∧ T._type = DataclassType.PYDANTIC
        ∧ target.allow_none = true ∧ target.required = false →
      linesOf (MappingMethodSourceCode.add_mapping ha (MappingMethodSourceCode.init S T)
          target (.field source) hex)
        = (MappingMethodSourceCode.init S T).lines
          ++ [.ifSet source.name, .assign 8 target.name (claim2Rhs target source)])
    ∧ (¬(S._type = DataclassType.PYDANTIC ∧ T._type = DataclassType.PYDANTIC
          ∧ target.allow_none = true ∧ target.required = false) →
      linesOf (MappingMethodSourceCode.add_mapping ha (MappingMethodSourceCode.init S T)
          target (.field source) hex)
        = (MappingMethodSourceCode.init S T).lines
          ++ [.assign 4 target.name (claim2Rhs target source)])
    ∧ (source.allow_none = true →
      ∀ (env : MapEnv) (methods : List (String × RegMethod)) (inst : Inst),
        inst.attr source.name = some Value.none →
        evalPExpr env methods inst (claim2Rhs target source) = some Value.none))

/-- The right-hand side claim C3 predicts: the element-wise list
conversion, null-guarded when the source is nullable. -/
def claim3Rhs (target source : FieldMeta) : PExpr :=
  if source.allow_none then
    .noneGuard source.name (.listComp (get_map_to_func_name target.type.arg0) source.name)
  else
    .listComp (get_map_to_func_name target.type.arg0) source.name

/-- Claim C3 exactly as stated: whenever both types are list types with a
conversion routine between the element types, the element-wise mapping is
emitted with the row-4 null-propagation and explicit-set guarding if
source nullability does not exceed target nullability, and behind a
not-None guard when the source is nullable, the target is not, and the
target is not required. -/
def claim3Stated : Prop :=
  ∀ (ha : PType → String → Bool) (S T : ClassMeta) (target source : FieldMeta) (hex : String),
    source.type.isList = true → target.type.isList = true →
    MappingMethodSourceCode.is_mappable_to ha source.type.arg0 target.type.arg0 = true →
    ((¬(source.allow_none ∧ target.disallow_none) →
      (S._type = DataclassType.PYDANTIC ∧ T._type = DataclassType.PYDANTIC
          ∧ target.allow_none = true ∧ target.required = false →
        linesOf (MappingMethodSourceCode.add_mapping ha (MappingMethodSourceCode.init S T)
            target (.field source) hex)
          = (MappingMethodSourceCode.init S T).lines
            ++ [.ifSet source.name, .assign 8 target.name (claim3Rhs target source)])
      ∧ (¬(S._type = DataclassType.PYDANTIC ∧ T._type = DataclassType.PYDANTIC
            ∧ target.allow_none = true ∧ target.required = false) →
        linesOf (MappingMethodSourceCode.add_mapping ha (MappingMethodSourceCode.init S T)
            target (.field source) hex)
          = (MappingMethodSourceCode.init S T).lines
            ++ [.assign 4 target.name (claim3Rhs target source)]))
    ∧ (source.allow_none = true → target.allow_none = false → target.required = false →
      linesOf (MappingMethodSourceCode.add_mapping ha (MappingMethodSourceCode.init S T)
          target (.field source) hex)
        = (MappingMethodSourceCode.init S T).lines
          ++ [.ifNotNone source.name, .assign 8 target.name (claim3Rhs target source)]))

/-! ### Alignment up to generated helper names

Two synthesis runs over the same inputs differ only in the
`uuid4().hex`-derived helper names.  The following relations state that
two emitted expressions (or lines, or line lists) agree up to such names,
where corresponding names resolve to the same registered helper. -/

/-- Two emitted expressions agree up to helper names: they are built the
same way from the same field names, and helper invocations use names that
resolve to the same registered helper in the respective registries. -/
inductive ExprAligned (ms1 ms2 : List (String × RegMethod)) : PExpr → PExpr → Prop
  | selfField (n : String) : ExprAligned ms1 ms2 (.selfField n) (.selfField n)
  | mapToField (n fn : String) : ExprAligned ms1 ms2 (.mapToField n fn) (.mapToField n fn)
  | listComp (fn n : String) : ExprAligned ms1 ms2 (.listComp fn n) (.listComp fn n)
  | callSelf (n1 n2 : String) :
      List.lookup n1 ms1 = List.lookup n2 ms2 →
      (List.lookup n1 ms1).isSome = true →
      ExprAligned ms1 ms2 (.callSelf n1) (.callSelf n2)
  | noneGuard (n : String) (e1 e2 : PExpr) :
      ExprAligned ms1 ms2 e1 e2 →
      ExprAligned ms1 ms2 (.noneGuard n e1) (.noneGuard n e2)

/-- Two emitted lines agree up to helper names. -/
inductive LineAligned (ms1 ms2 : List (String × RegMethod)) : Line → Line → Prop
  | defConvert (tn : String) : LineAligned ms1 ms2 (.defConvert tn) (.defConvert tn)
  | dInit : LineAligned ms1 ms2 .dInit .dInit
  | ifNotNone (n : String) : LineAligned ms1 ms2 (.ifNotNone n) (.ifNotNone n)
  | ifSet (n : String) : LineAligned ms1 ms2 (.ifSet n) (.ifSet n)
  | assign (i : Nat) (k : String) (r1 r2 : PExpr) :
      ExprAligned ms1 ms2 r1 r2 →
      LineAligned ms1 ms2 (.assign i k r1) (.assign i k r2)

/-- Emitted expressions that invoke no registered helper; such
expressions evaluate independently of the helper registry. -/
def PExpr.callFree : PExpr → Bool
  | .callSelf _ => false
  | .noneGuard _ e => e.callFree
  | _ => true

/-- Emitted lines that invoke no registered helper. -/
def Line.callFree : Line → Bool
  | .assign _ _ r => r.callFree
  | _ => true

/-- Two emitted line lists agree pointwise up to helper names. -/
inductive LinesAligned (ms1 ms2 : List (String × RegMethod)) : List Line → List Line → Prop
  | nil : LinesAligned ms1 ms2 [] []
  | cons (l1 l2 : Line) (ls1 ls2 : List Line) :
      LineAligned ms1 ms2 l1 l2 → LinesAligned ms1 ms2 ls1 ls2 →
      LinesAligned ms1 ms2 (l1 :: ls1) (l2 :: ls2)

/-- Two synthesis results agree up to helper names: either the same
raised error, or builders over the same classes whose lines align. -/
def ResultAligned :
    Except String MappingMethodSourceCode → Except String MappingMethodSourceCode → Prop
  | .ok d1, .ok d2 =>
      d1.source_cls = d2.source_cls ∧ d1.target_cls = d2.target_cls
        ∧ LinesAligned d1.methods d2.methods d1.lines d2.lines
  | .error e1, .error e2 => e1 = e2
  | _, _ => False

/-! ## Theorems -/

/-- Claim C4 (decision-table row 3): when the types agree, the source is
nullable, the target is not nullable and not required, `add_mapping` emits
the not-None-guarded direct assignment, and the emitted guard assigns the
target key exactly when the source value is not null, leaving the dict
unchanged when it is null. -/
theorem add_mapping_guarded_direct_assignment
    (ha : PType → String → Bool) (S T : ClassMeta) (target source : FieldMeta) (hex : String)
    (htype : target.type = source.type) (hsan : source.allow_none = true)
    (htan : target.allow_none = false) (hreq : target.required = false) :
    linesOf (MappingMethodSourceCode.add_mapping ha (MappingMethodSourceCode.init S T)
        target (.field source) hex)
      = (MappingMethodSourceCode.init S T).lines
        ++ [.ifNotNone source.name, .assign 8 target.name (.selfField source.name)]
    ∧ ∀ (env : MapEnv) (methods : List (String × RegMethod)) (inst : Inst)
        (d : List (String × Value)) (v : Value),
        inst.attr source.name = some v →
        execLines env methods inst
            [.ifNotNone source.name, .assign 8 target.name (.selfField source.name)] d
          = some (if v.isNone then d else setKey d target.name v) := by
  constructor
  · simp [MappingMethodSourceCode.add_mapping, MappingMethodSourceCode.add_assignment,
      linesOf, FieldMeta.disallow_none, htype, hsan, htan, hreq]
  · intro env methods inst d v hv
    cases hval : v.isNone <;>
      simp [execLines, evalPExpr, hv, hval]

/-- Witness for C4 at a concrete field pair and instance. -/
theorem add_mapping_guarded_direct_assignment_witness :
    let tgt : FieldMeta := ⟨"t", .scalar "int", false, false⟩
    let src : FieldMeta := ⟨"s", .scalar "int", true, true⟩
    let inst : Inst := ⟨[("s", .int 5)], ["s"]⟩
    linesOf (MappingMethodSourceCode.add_mapping exNoAttr
        (MappingMethodSourceCode.init exPydFoo exPydBar) tgt (.field src) "u")
      = (MappingMethodSourceCode.init exPydFoo exPydBar).lines
        ++ [.ifNotNone "s", .assign 8 "t" (.selfField "s")]
    ∧ execLines exIdEnv [] inst [.ifNotNone "s", .assign 8 "t" (.selfField "s")] []
        = some [("t", .int 5)] := by
  refine ⟨(add_mapping_guarded_direct_assignment exNoAttr exPydFoo exPydBar
    ⟨"t", .scalar "int", false, false⟩ ⟨"s", .scalar "int", true, true⟩ "u"
    rfl rfl rfl rfl).1, ?_⟩
  exact (add_mapping_guarded_direct_assignment exNoAttr exPydFoo exPydBar
    ⟨"t", .scalar "int", false, false⟩ ⟨"s", .scalar "int", true, true⟩ "u"
    rfl rfl rfl rfl).2 exIdEnv [] ⟨[("s", .int 5)], ["s"]⟩ [] (.int 5) rfl

/-- Claim C6 (decision-table row 1): when the types agree, source
nullability does not exceed target nullability, and the explicit-set
condition of row 2 does not apply, `add_mapping` emits the unconditional
direct assignment; on the identical-shape Scenario A record the generated
routine constructs the target from exactly the source's values. -/
theorem add_mapping_direct_assignment
    (ha : PType → String → Bool) (S T : ClassMeta) (target source : FieldMeta) (hex : String)
    (htype : target.type = source.type)
    (hnn : ¬(source.allow_none ∧ target.disallow_none))
    (hrow2 : ¬(S._type = DataclassType.PYDANTIC ∧ T._type = DataclassType.PYDANTIC
        ∧ target.allow_none = true ∧ target.required = false)) :
    linesOf (MappingMethodSourceCode.add_mapping ha (MappingMethodSourceCode.init S T)
        target (.field source) hex)
      = (MappingMethodSourceCode.init S T).lines
        ++ [.assign 4 target.name (.selfField source.name)]
    ∧ exScenarioA = .ok (some ⟨"BarAlias", [("x", .int 42), ("y", .str "answer")]⟩) := by
  constructor
  · have hinner : ¬(source.allow_none = true ∧ target.allow_none = true
        ∧ ¬target.required = true
        ∧ (MappingMethodSourceCode.init S T).source_cls._type
            = (MappingMethodSourceCode.init S T).target_cls._type
        ∧ (MappingMethodSourceCode.init S T).target_cls._type = DataclassType.PYDANTIC) := by
      rintro ⟨-, h2, h3, h4, h5⟩
      exact hrow2 ⟨h4.trans h5, h5, h2, by simpa using h3⟩
    simp only [MappingMethodSourceCode.add_mapping]
    rw [if_pos ⟨htype, hnn⟩, if_neg hinner]
    simp [linesOf, MappingMethodSourceCode.add_assignment]
  · rfl

/-- Witness for C6 at a concrete field pair. -/
theorem add_mapping_direct_assignment_witness :
    linesOf (MappingMethodSourceCode.add_mapping exNoAttr
        (MappingMethodSourceCode.init exPydFoo exPydBar) exFieldX (.field exFieldX) "u")
      = (MappingMethodSourceCode.init exPydFoo exPydBar).lines
        ++ [.assign 4 "x" (.selfField "x")]
    ∧ exScenarioA = .ok (some ⟨"BarAlias", [("x", .int 42), ("y", .str "answer")]⟩) :=
  add_mapping_direct_assignment exNoAttr exPydFoo exPydBar exFieldX exFieldX "u"
    rfl (by decide) (by decide)

/-- Claim C5: when no decision-table row matches, `add_mapping` raises at
synthesis time a `TypeError` whose message contains the source field's
name, the source record's name, the target field's name, and the phrase
"cannot be converted". -/
theorem add_mapping_unmappable_raises
    (ha : PType → String → Bool) (S T : ClassMeta) (target source : FieldMeta) (hex : String)
    (h1 : ¬(target.type = source.type ∧ ¬(source.allow_none ∧ target.disallow_none)))
    (h2 : ¬(target.type = source.type ∧ source.allow_none ∧ target.disallow_none
        ∧ ¬target.required))
    (h3 : ¬(MappingMethodSourceCode.is_mappable_to ha source.type target.type
        ∧ ¬(source.allow_none ∧ target.disallow_none)))
    (h4 : ¬(source.type.isList ∧ target.type.isList
        ∧ MappingMethodSourceCode.is_mappable_to ha source.type.arg0 target.type.arg0
        ∧ ¬(source.allow_none ∧ target.disallow_none)))
    (h5 : ¬(source.type.isList ∧ target.type.isList
        ∧ MappingMethodSourceCode.is_mappable_to ha source.type.arg0 target.type.arg0
        ∧ source.allow_none ∧ target.disallow_none ∧ ¬target.required)) :
    MappingMethodSourceCode.add_mapping ha (MappingMethodSourceCode.init S T)
        target (.field source) hex
      = .error (source.str ++ " of \x27" ++ S.name
          ++ "\x27 cannot be converted to " ++ target.str)
    ∧ source.name.data
        <:+: (source.str ++ " of \x27" ++ S.name
          ++ "\x27 cannot be converted to " ++ target.str).data
    ∧ S.name.data
        <:+: (source.str ++ " of \x27" ++ S.name
          ++ "\x27 cannot be converted to " ++ target.str).data
    ∧ target.name.data
        <:+: (source.str ++ " of \x27" ++ S.name
          ++ "\x27 cannot be converted to " ++ target.str).data
    ∧ "cannot be converted".data
        <:+: (source.str ++ " of \x27" ++ S.name
          ++ "\x27 cannot be converted to " ++ target.str).data := by
  have hdata : (source.str ++ " of \x27" ++ S.name
      ++ "\x27 cannot be converted to " ++ target.str).data
      = source.name.data ++ (" of \x27".data
          ++ (S.name.data ++ ("\x27 cannot be converted to ".data ++ target.name.data))) := by
    simp [FieldMeta.str, String.data_append]
  refine ⟨?_, ?_, ?_, ?_, ?_⟩
  · simp only [MappingMethodSourceCode.add_mapping]
    rw [if_neg h1, if_neg h2, if_neg h3, if_neg h4, if_neg h5]
    rfl
  · exact ⟨[], " of \x27".data
      ++ (S.name.data ++ ("\x27 cannot be converted to ".data ++ target.name.data)),
      by rw [hdata]; simp⟩
  · exact ⟨source.name.data ++ " of \x27".data,
      "\x27 cannot be converted to ".data ++ target.name.data, by rw [hdata]; simp⟩
  · exact ⟨source.name.data ++ (" of \x27".data
      ++ (S.name.data ++ "\x27 cannot be converted to ".data)), [],
      by rw [hdata]; simp⟩
  · have hlit : "cannot be converted".data <:+: "\x27 cannot be converted to ".data := by
      decide
    have hmid : "\x27 cannot be converted to ".data
        <:+: (source.str ++ " of \x27" ++ S.name
          ++ "\x27 cannot be converted to " ++ target.str).data := by
      exact ⟨source.name.data ++ (" of \x27".data ++ S.name.data), target.name.data,
        by rw [hdata]; simp⟩
    exact hlit.trans hmid

/-- Witness for C5 at a concrete unmappable pair. -/
theorem add_mapping_unmappable_raises_witness :
    MappingMethodSourceCode.add_mapping exNoAttr
        (MappingMethodSourceCode.init exPydFoo exPydBar)
        ⟨"z", .scalar "str", false, true⟩ (.field ⟨"s", .scalar "int", false, true⟩) "u"
      = .error "s of \x27Foo\x27 cannot be converted to z"
    ∧ "cannot be converted".data <:+: "s of \x27Foo\x27 cannot be converted to z".data := by
  have h := add_mapping_unmappable_raises exNoAttr exPydFoo exPydBar
    ⟨"z", .scalar "str", false, true⟩ ⟨"s", .scalar "int", false, true⟩ "u"
    (by decide) (by decide) (by decide) (by decide) (by decide)
  exact ⟨h.1, h.2.2.2.2⟩

/-- Claim C1 as stated is false: for a non-nullable source field mapped to
a nullable, non-required target field of the same type between two
explicit-set-tracking classes, `add_mapping` emits the unconditional
assignment, not the `__fields_set__`-guarded one.  The code's guard
condition additionally requires `source.allow_none`. -/
theorem claim1_counterexample : ¬ claim1Stated := by
  intro h
  have := h exNoAttr exPydFoo exPydBar ⟨"t", .scalar "int", true, false⟩
    ⟨"s", .scalar "int", false, true⟩ "u" rfl (by decide) rfl rfl rfl rfl
  exact absurd this (by decide)

/-- Claim C1 amended: with the additional hypothesis that the source field
is nullable, `add_mapping` emits the `__fields_set__`-guarded direct
assignment, which at call time sets the target key exactly when the source
field's name is among the explicitly provided names and otherwise leaves
the dict unchanged. -/
theorem add_mapping_explicit_set_assignment
    (ha : PType → String → Bool) (S T : ClassMeta) (target source : FieldMeta) (hex : String)
    (htype : target.type = source.type)
    (hsan : source.allow_none = true)
    (htan : target.allow_none = true) (hreq : target.required = false)
    (hS : S._type = DataclassType.PYDANTIC) (hT : T._type = DataclassType.PYDANTIC) :
    linesOf (MappingMethodSourceCode.add_mapping ha (MappingMethodSourceCode.init S T)
        target (.field source) hex)
      = (MappingMethodSourceCode.init S T).lines
        ++ [.ifSet source.name, .assign 8 target.name (.selfField source.name)]
    ∧ ∀ (env : MapEnv) (methods : List (String × RegMethod)) (inst : Inst)
        (d : List (String × Value)) (v : Value),
        inst.attr source.name = some v →
        execLines env methods inst
            [.ifSet source.name, .assign 8 target.name (.selfField source.name)] d
          = some (if source.name ∈ inst.fields_set then setKey d target.name v else d) := by
  constructor
  · simp [MappingMethodSourceCode.add_mapping, MappingMethodSourceCode.add_assignment,
      MappingMethodSourceCode.init, linesOf, FieldMeta.disallow_none,
      htype, hsan, htan, hreq, hS, hT]
  · intro env methods inst d v hv
    by_cases hm : source.name ∈ inst.fields_set <;>
      simp [execLines, evalPExpr, hv, hm]

/-- Witness for the amended C1: the guarded assignment is emitted, and on
an instance whose field was never explicitly set the target key stays
unset. -/
theorem add_mapping_explicit_set_assignment_witness :
    linesOf (MappingMethodSourceCode.add_mapping exNoAttr
        (MappingMethodSourceCode.init exPydFoo exPydBar)
        ⟨"t", .scalar "int", true, false⟩ (.field ⟨"s", .scalar "int", true, true⟩) "u")
      = (MappingMethodSourceCode.init exPydFoo exPydBar).lines
        ++ [.ifSet "s", .assign 8 "t" (.selfField "s")]
    ∧ execLines exIdEnv [] ⟨[("s", .int 3)], []⟩
        [.ifSet "s", .assign 8 "t" (.selfField "s")] [] = some [] := by
  have h := add_mapping_explicit_set_assignment exNoAttr exPydFoo exPydBar
    ⟨"t", .scalar "int", true, false⟩ ⟨"s", .scalar "int", true, true⟩ "u"
    rfl rfl rfl rfl rfl rfl
  exact ⟨h.1, h.2 exIdEnv [] ⟨[("s", .int 3)], []⟩ [] (.int 3) rfl⟩

/-- Claim C2 as stated is false: for a non-nullable source field whose
type is recursively mappable to a nullable, non-required target field
between two explicit-set-tracking classes, `add_mapping` emits the plain
recursive assignment, not the `__fields_set__`-guarded one; moreover, for
identical mappable types the identical-type row takes precedence and a
direct assignment is emitted instead of the recursive invocation. -/
theorem claim2_counterexample : ¬ claim2Stated := by
  intro h
  have := (h exBarAttr exPydFoo exPydBar ⟨"bar", .cls "Bar", true, false⟩
    ⟨"bar", .cls "Bar2", false, true⟩ "u" (by decide) (by decide)).1
    ⟨rfl, rfl, rfl, rfl⟩
  exact absurd this (by decide)

/-- Claim C2 amended: under the additional hypothesis that the target and
source types differ (the identical-type rows of the first-match decision
table take precedence), `add_mapping` emits the recursive invocation of
the nested routine, null-guarded when the source is nullable; the
explicit-set guard applies when additionally the source is nullable, both
kinds track explicit-set, and the target is nullable and not required.
The emitted expression maps null to null and invokes the nested routine on
record values. -/
theorem add_mapping_recursive_mapping
    (ha : PType → String → Bool) (S T : ClassMeta) (target source : FieldMeta) (hex : String)
    (hmap : MappingMethodSourceCode.is_mappable_to ha source.type target.type = true)
    (hnn : ¬(source.allow_none ∧ target.disallow_none))
    (hne : ¬target.type = source.type) :
    ((source.allow_none = true ∧ target.allow_none = true ∧ target.required = false
        ∧ S._type = DataclassType.PYDANTIC ∧ T._type = DataclassType.PYDANTIC) →
      linesOf (MappingMethodSourceCode.add_mapping ha (MappingMethodSourceCode.init S T)
          target (.field source) hex)
        = (MappingMethodSourceCode.init S T).lines
          ++ [.ifSet source.name, .assign 8 target.name
                (.noneGuard source.name
                  (.mapToField source.name (get_map_to_func_name target.type)))])
    ∧ (¬(source.allow_none = true ∧ target.allow_none = true ∧ target.required = false
          ∧ S._type = DataclassType.PYDANTIC ∧ T._type = DataclassType.PYDANTIC) →
      linesOf (MappingMethodSourceCode.add_mapping ha (MappingMethodSourceCode.init S T)
          target (.field source) hex)
        = (MappingMethodSourceCode.init S T).lines
          ++ [.assign 4 target.name (claim2Rhs target source)])
    ∧ (source.allow_none = true →
      ∀ (env : MapEnv) (methods : List (String × RegMethod)) (inst : Inst),
        inst.attr source.name = some Value.none →
        evalPExpr env methods inst (claim2Rhs target source) = some Value.none)
    ∧ (∀ (env : MapEnv) (methods : List (String × RegMethod)) (inst : Inst)
        (tn : String) (fs : List (String × Value)) (fset : List String),
        inst.attr source.name = some (.obj tn fs fset) →
        evalPExpr env methods inst
            (.mapToField source.name (get_map_to_func_name target.type))
          = some (env (get_map_to_func_name target.type) (.obj tn fs fset))) := by
  refine ⟨?_, ?_, ?_, ?_⟩
  · rintro ⟨hsan, htan, hreq, hS, hT⟩
    simp [MappingMethodSourceCode.add_mapping, MappingMethodSourceCode.add_recursive,
      MappingMethodSourceCode.init, linesOf, FieldMeta.disallow_none,
      hmap, hnn, hne, hsan, htan, hreq, hS, hT]
  · intro hnot
    have h1 : ¬(target.type = source.type
        ∧ ¬(source.allow_none = true ∧ target.disallow_none = true)) := by
      rintro ⟨he, -⟩; exact hne he
    have h2 : ¬(target.type = source.type ∧ source.allow_none = true
        ∧ target.disallow_none = true ∧ ¬target.required = true) := by
      rintro ⟨he, -⟩; exact hne he
    have hinner : ¬(source.allow_none = true ∧ target.allow_none = true
        ∧ ¬target.required = true
        ∧ (MappingMethodSourceCode.init S T).source_cls._type
            = (MappingMethodSourceCode.init S T).target_cls._type
        ∧ (MappingMethodSourceCode.init S T).target_cls._type = DataclassType.PYDANTIC) := by
      rintro ⟨a1, a2, a3, a4, a5⟩
      exact hnot ⟨a1, a2, by simpa using a3, a4.trans a5, a5⟩
    simp only [MappingMethodSourceCode.add_mapping]
    rw [if_neg h1, if_neg h2, if_pos ⟨hmap, by simpa using hnn⟩, if_neg hinner]
    simp [linesOf, MappingMethodSourceCode.add_recursive, claim2Rhs]
  · intro hsan env methods inst hv
    simp [claim2Rhs, hsan, evalPExpr, hv, Value.isNone]
  · intro env methods inst tn fs fset hv
    simp [evalPExpr, hv, callMapFunc]

/-- Witness for the amended C2 (spec Scenario B shape): the recursive
assignment is emitted for a `Bar2`-typed field mapped to a `Bar`-typed
one, and evaluating the emitted expression on a record value invokes the
nested routine. -/
theorem add_mapping_recursive_mapping_witness :
    linesOf (MappingMethodSourceCode.add_mapping exBarAttr
        (MappingMethodSourceCode.init exPydFoo exPydBar)
        ⟨"bar", .cls "Bar", false, true⟩ (.field ⟨"bar", .cls "Bar2", false, true⟩) "u")
      = (MappingMethodSourceCode.init exPydFoo exPydBar).lines
        ++ [.assign 4 "bar" (.mapToField "bar" "_map_to_Bar")]
    ∧ evalPExpr exIdEnv [] ⟨[("bar", .obj "Bar2" [("x", .int 1)] [])], []⟩
        (.mapToField "bar" "_map_to_Bar")
      = some (.obj "Bar2" [("x", .int 1)] []) := by
  have h := add_mapping_recursive_mapping exBarAttr exPydFoo exPydBar
    ⟨"bar", .cls "Bar", false, true⟩ ⟨"bar", .cls "Bar2", false, true⟩ "u"
    (by decide) (by decide) (by decide)
  exact ⟨h.2.1 (by decide),
    h.2.2.2 exIdEnv [] ⟨[("bar", .obj "Bar2" [("x", .int 1)] [])], []⟩ "Bar2"
      [("x", .int 1)] [] rfl⟩

/-- Mapping the generated list comprehension over a list of record values
applies the nested routine to every element, in order. -/
theorem mapM_callMapFunc (env : MapEnv) (fn : String) :
    ∀ (vs : List Value), (∀ v ∈ vs, ∃ tn fs fset, v = Value.obj tn fs fset) →
    vs.mapM (callMapFunc env fn) = some (vs.map (env fn)) := by
  intro vs
  induction vs with
  | nil => intro; rfl
  | cons v vs ih =>
    intro h
    obtain ⟨tn, fs, fset, rfl⟩ := h v (List.mem_cons_self v vs)
    simp only [List.mapM_cons, List.map_cons]
    rw [ih (fun w hw => h w (List.mem_cons_of_mem _ hw))]
    simp [callMapFunc]

/-- Claim C3 as stated is false: for a non-nullable list-typed source
field mapped to a nullable, non-required list-typed target field between
two explicit-set-tracking classes, `add_mapping` emits the plain
element-wise assignment, not the `__fields_set__`-guarded one; moreover
for identical mappable list types the identical-type row of the
first-match table takes precedence. -/
theorem claim3_counterexample : ¬ claim3Stated := by
  intro h
  have := ((h exTagAttr exPydFoo exPydBar ⟨"tags", .list (.cls "TTag"), true, false⟩
    ⟨"tags", .list (.cls "STag"), false, true⟩ "u" rfl rfl (by decide)).1
    (by decide)).1 ⟨rfl, rfl, rfl, rfl⟩
  exact absurd this (by decide)

/-- Claim C3 amended: under the additional hypotheses that the two list
types differ and the list types themselves carry no conversion routine
(the identical-type and plain-recursive rows of the first-match decision
table take precedence), `add_mapping` emits the element-wise list
conversion: `__fields_set__`-guarded when additionally the source is
nullable, both kinds track explicit-set and the target is nullable and not
required; plainly otherwise when source nullability does not exceed target
nullability; and behind a not-None guard when the source is nullable and
the target is non-nullable and not required, in which case a null source
list leaves the dict unchanged.  The element-wise expression applies the
nested routine to every element, preserving order. -/
theorem add_mapping_recursive_list_mapping
    (ha : PType → String → Bool) (S T : ClassMeta) (target source : FieldMeta) (hex : String)
    (hsl : source.type.isList = true) (htl : target.type.isList = true)
    (hmapel : MappingMethodSourceCode.is_mappable_to ha source.type.arg0 target.type.arg0
        = true)
    (hne : ¬target.type = source.type)
    (hnm : MappingMethodSourceCode.is_mappable_to ha source.type target.type = false) :
    ((source.allow_none = true ∧ target.allow_none = true ∧ target.required = false
        ∧ S._type = DataclassType.PYDANTIC ∧ T._type = DataclassType.PYDANTIC) →
      linesOf (MappingMethodSourceCode.add_mapping ha (MappingMethodSourceCode.init S T)
          target (.field source) hex)
        = (MappingMethodSourceCode.init S T).lines
          ++ [.ifSet source.name, .assign 8 target.name
                (.noneGuard source.name
                  (.listComp (get_map_to_func_name target.type.arg0) source.name))])
    ∧ (¬(source.allow_none = true ∧ target.allow_none = true ∧ target.required = false
          ∧ S._type = DataclassType.PYDANTIC ∧ T._type = DataclassType.PYDANTIC) →
      ¬(source.allow_none ∧ target.disallow_none) →
      linesOf (MappingMethodSourceCode.add_mapping ha (MappingMethodSourceCode.init S T)
          target (.field source) hex)
        = (MappingMethodSourceCode.init S T).lines
          ++ [.assign 4 target.name (claim3Rhs target source)])
    ∧ (source.allow_none = true → target.allow_none = false → target.required = false →
      linesOf (MappingMethodSourceCode.add_mapping ha (MappingMethodSourceCode.init S T)
          target (.field source) hex)
        = (MappingMethodSourceCode.init S T).lines
          ++ [.ifNotNone source.name, .assign 8 target.name
                (.noneGuard source.name
                  (.listComp (get_map_to_func_name target.type.arg0) source.name))])
    ∧ (∀ (env : MapEnv) (methods : List (String × RegMethod)) (inst : Inst)
        (vs : List Value),
        inst.attr source.name = some (.vlist vs) →
        (∀ v ∈ vs, ∃ tn fs fset, v = Value.obj tn fs fset) →
        evalPExpr env methods inst
            (.listComp (get_map_to_func_name target.type.arg0) source.name)
          = some (.vlist (vs.map (env (get_map_to_func_name target.type.arg0)))))
    ∧ (∀ (env : MapEnv) (methods : List (String × RegMethod)) (inst : Inst)
        (d : List (String × Value)) (rhs : PExpr),
        inst.attr source.name = some Value.none →
        execLines env methods inst
            [.ifNotNone source.name, .assign 8 target.name rhs] d = some d) := by
  have h1 : ¬(target.type = source.type
      ∧ ¬(source.allow_none = true ∧ target.disallow_none = true)) := by
    rintro ⟨he, -⟩; exact hne he
  have h2 : ¬(target.type = source.type ∧ source.allow_none = true
      ∧ target.disallow_none = true ∧ ¬target.required = true) := by
    rintro ⟨he, -⟩; exact hne he
  have h3 : ¬(MappingMethodSourceCode.is_mappable_to ha source.type target.type = true
      ∧ ¬(source.allow_none = true ∧ target.disallow_none = true)) := by
    rintro ⟨he, -⟩; rw [hnm] at he; exact absurd he (by simp)
  refine ⟨?_, ?_, ?_, ?_, ?_⟩
  · rintro ⟨hsan, htan, hreq, hS, hT⟩
    simp only [MappingMethodSourceCode.add_mapping]
    rw [if_neg h1, if_neg h2, if_neg h3,
      if_pos ⟨hsl, htl, hmapel, by simp [FieldMeta.disallow_none, htan]⟩,
      if_pos ⟨hsan, htan, by simpa using hreq,
        by simp [MappingMethodSourceCode.init, hS, hT], by simp [MappingMethodSourceCode.init, hT]⟩]
    simp [linesOf, MappingMethodSourceCode.add_recursive_list, hsan]
  · intro hnot hnnn
    have hinner : ¬(source.allow_none = true ∧ target.allow_none = true
        ∧ ¬target.required = true
        ∧ (MappingMethodSourceCode.init S T).source_cls._type
            = (MappingMethodSourceCode.init S T).target_cls._type
        ∧ (MappingMethodSourceCode.init S T).target_cls._type = DataclassType.PYDANTIC) := by
      rintro ⟨a1, a2, a3, a4, a5⟩
      exact hnot ⟨a1, a2, by simpa using a3,
        (by simpa [MappingMethodSourceCode.init] using a4.trans a5),
        (by simpa [MappingMethodSourceCode.init] using a5)⟩
    simp only [MappingMethodSourceCode.add_mapping]
    rw [if_neg h1, if_neg h2, if_neg h3,
      if_pos ⟨hsl, htl, hmapel, by simpa using hnnn⟩, if_neg hinner]
    simp [linesOf, MappingMethodSourceCode.add_recursive_list, claim3Rhs]
  · intro hsan htan hreq
    have h4 : ¬(source.type.isList = true ∧ target.type.isList = true
        ∧ MappingMethodSourceCode.is_mappable_to ha source.type.arg0 target.type.arg0 = true
        ∧ ¬(source.allow_none = true ∧ target.disallow_none = true)) := by
      rintro ⟨-, -, -, hq⟩
      exact hq ⟨hsan, by simp [FieldMeta.disallow_none, htan]⟩
    simp only [MappingMethodSourceCode.add_mapping]
    rw [if_neg h1, if_neg h2, if_neg h3, if_neg h4,
      if_pos ⟨hsl, htl, hmapel, hsan, by simp [FieldMeta.disallow_none, htan],
        by simpa using hreq⟩]
    simp [linesOf, MappingMethodSourceCode.add_recursive_list, hsan]
  · intro env methods inst vs hv hobj
    show (inst.attr source.name).bind _ = _
    rw [hv]
    show (vs.mapM (callMapFunc env (get_map_to_func_name target.type.arg0))).map Value.vlist
      = _
    rw [mapM_callMapFunc env _ vs hobj]
    rfl
  · intro env methods inst d rhs hv
    simp [execLines, hv, Value.isNone]

/-- Witness for the amended C3 (spec Scenario F shape): the element-wise
assignment is emitted for `list[STag] → list[TTag]`, and evaluating the
emitted comprehension maps the routine over both elements in order. -/
theorem add_mapping_recursive_list_mapping_witness :
    linesOf (MappingMethodSourceCode.add_mapping exTagAttr
        (MappingMethodSourceCode.init exPydFoo exPydBar)
        ⟨"tags", .list (.cls "TTag"), false, true⟩
        (.field ⟨"tags", .list (.cls "STag"), false, true⟩) "u")
      = (MappingMethodSourceCode.init exPydFoo exPydBar).lines
        ++ [.assign 4 "tags" (.listComp "_map_to_TTag" "tags")]
    ∧ evalPExpr exTagEnv []
        ⟨[("tags", .vlist [.obj "STag" [("n", .int 1)] [], .obj "STag" [("n", .int 2)] []])], []⟩
        (.listComp "_map_to_TTag" "tags")
      = some (.vlist [.obj "TTag" [("n", .int 1)] [], .obj "TTag" [("n", .int 2)] []]) := by
  have h := add_mapping_recursive_list_mapping exTagAttr exPydFoo exPydBar
    ⟨"tags", .list (.cls "TTag"), false, true⟩ ⟨"tags", .list (.cls "STag"), false, true⟩ "u"
    rfl rfl (by decide) (by decide) (by decide)
  refine ⟨h.2.1 (by decide) (by decide), ?_⟩
  exact h.2.2.2.1 exTagEnv []
    ⟨[("tags", .vlist [.obj "STag" [("n", .int 1)] [], .obj "STag" [("n", .int 2)] []])], []⟩
    [.obj "STag" [("n", .int 1)] [], .obj "STag" [("n", .int 2)] []] rfl
    (by intro v hv
        simp only [List.mem_cons, List.mem_singleton] at hv
        rcases hv with rfl | rfl | h
        · exact ⟨"STag", [("n", .int 1)], [], rfl⟩
        · exact ⟨"STag", [("n", .int 2)], [], rfl⟩
        · cases h)

/-- Looking a key up in an appended registry skips a prefix that does not
bind it. -/
theorem lookup_append_right {β : Type} (k : String) (xs ys : List (String × β))
    (h : List.lookup k xs = Option.none) :
    List.lookup k (xs ++ ys) = List.lookup k ys := by
  induction xs with
  | nil => simp
  | cons p xs ih =>
    cases p with
    | mk a b =>
      cases hk : (k == a) with
      | true => simp [List.lookup, hk] at h
      | false =>
        simp only [List.lookup, hk] at h
        simpa only [List.cons_append, List.lookup, hk] using ih h

/-- Looking a key up in a registry whose prefix does not bind it finds the
entry appended for it. -/
theorem lookup_append_self {β : Type} (k : String) (xs : List (String × β)) (b : β)
    (h : List.lookup k xs = Option.none) :
    List.lookup k (xs ++ [(k, b)]) = some b := by
  rw [lookup_append_right k xs _ h]
  simp [List.lookup]

/-- Claim C8: a zero-parameter callable origin is registered as a static
helper and a one-parameter one as a bound helper, in both cases under the
freshly drawn name prefixed with an underscore; exactly one statement is
emitted, which assigns the result of invoking `self.<name>()` to the
target key; `add_mapping` routes callable origins to this registration;
and — provided the fresh name is indeed unused — evoking the emitted
expression calls the zero-parameter helper with no arguments and passes
the source instance to the one-parameter helper. -/
theorem add_function_call_registers_helper
    (code : MappingMethodSourceCode) (target : FieldMeta) (f : PyFunction) (hex : String) :
    (code.add_function_call target f hex).lines
      = code.lines ++ [.assign 4 target.name (.callSelf ("_" ++ hex))]
    ∧ (∀ g, f = .fn0 g →
        (code.add_function_call target f hex).methods
          = code.methods ++ [("_" ++ hex, .staticm (.fn0 g))])
    ∧ (∀ g, f = .fn1 g →
        (code.add_function_call target f hex).methods
          = code.methods ++ [("_" ++ hex, .bound (.fn1 g))])
    ∧ (∀ ha : PType → String → Bool,
        code.add_mapping ha target (.func f) hex = .ok (code.add_function_call target f hex))
    ∧ (List.lookup ("_" ++ hex) code.methods = Option.none →
        ∀ (env : MapEnv) (inst : Inst),
        ((∀ g, f = .fn0 g →
          evalPExpr env (code.add_function_call target f hex).methods inst
              (.callSelf ("_" ++ hex)) = some (g ()))
        ∧ (∀ g, f = .fn1 g →
          evalPExpr env (code.add_function_call target f hex).methods inst
              (.callSelf ("_" ++ hex)) = some (g inst)))) := by
  refine ⟨?_, ?_, ?_, ?_, ?_⟩
  · cases f <;> rfl
  · rintro g rfl; rfl
  · rintro g rfl; rfl
  · intro ha; rfl
  · intro hfresh env inst
    constructor
    · rintro g rfl
      show (List.lookup ("_" ++ hex)
        (code.methods ++ [("_" ++ hex, .staticm (.fn0 g))])).bind (callRegMethod inst) = _
      rw [lookup_append_self _ _ _ hfresh]
      rfl
    · rintro g rfl
      show (List.lookup ("_" ++ hex)
        (code.methods ++ [("_" ++ hex, .bound (.fn1 g))])).bind (callRegMethod inst) = _
      rw [lookup_append_self _ _ _ hfresh]
      rfl

/-- Witness for C8: a concrete zero-parameter callable is registered and
its emitted call produces the callable's value. -/
theorem add_function_call_registers_helper_witness :
    ((MappingMethodSourceCode.init exPydFoo exPydBar).add_function_call
        ⟨"z", .scalar "int", false, true⟩ (.fn0 fun _ => .int 7) "aaaa").lines
      = (MappingMethodSourceCode.init exPydFoo exPydBar).lines
        ++ [.assign 4 "z" (.callSelf "_aaaa")]
    ∧ evalPExpr exIdEnv
        ((MappingMethodSourceCode.init exPydFoo exPydBar).add_function_call
          ⟨"z", .scalar "int", false, true⟩ (.fn0 fun _ => .int 7) "aaaa").methods
        exInst (.callSelf "_aaaa") = some (.int 7) := by
  have h := add_function_call_registers_helper
    (MappingMethodSourceCode.init exPydFoo exPydBar)
    ⟨"z", .scalar "int", false, true⟩ (.fn0 fun _ => .int 7) "aaaa"
  exact ⟨h.1, (h.2.2.2.2 rfl exIdEnv exInst).1 _ rfl⟩

/-- Every single builder call leaves the class descriptions untouched and
only appends to the line list. -/
theorem applyOp_spec (c : MappingMethodSourceCode) (op : BuilderOp) :
    (applyOp c op).source_cls = c.source_cls
    ∧ (applyOp c op).target_cls = c.target_cls
    ∧ ∃ tail, (applyOp c op).lines = c.lines ++ tail := by
  cases op with
  | assignment t s a b =>
    exact ⟨rfl, rfl, _, List.append_assoc _ _ _⟩
  | recursive t s a b =>
    cases a
    · exact ⟨rfl, rfl, _, rfl⟩
    · exact ⟨rfl, rfl, _, rfl⟩
  | recursiveList t s a b c' =>
    exact ⟨rfl, rfl, _, List.append_assoc _ _ _⟩
  | functionCall t f hex =>
    exact ⟨rfl, rfl, _, rfl⟩
  | mapping ha t src hex =>
    cases src with
    | func f => exact ⟨rfl, rfl, _, rfl⟩
    | field s =>
      simp only [applyOp, MappingMethodSourceCode.add_mapping]
      split_ifs <;>
        first
          | exact ⟨rfl, rfl, _, List.append_assoc _ _ _⟩
          | exact ⟨rfl, rfl, _, rfl⟩
          | exact ⟨rfl, rfl, [], by simp⟩

/-- A whole builder call sequence leaves the class descriptions untouched
and only appends to the line list. -/
theorem applyOps_spec (c : MappingMethodSourceCode) (ops : List BuilderOp) :
    (applyOps c ops).source_cls = c.source_cls
    ∧ (applyOps c ops).target_cls = c.target_cls
    ∧ ∃ tail, (applyOps c ops).lines = c.lines ++ tail := by
  induction ops generalizing c with
  | nil => exact ⟨rfl, rfl, [], by simp [applyOps]⟩
  | cons op ops ih =>
    obtain ⟨h1, h2, t1, h3⟩ := applyOp_spec c op
    obtain ⟨g1, g2, t2, g3⟩ := ih (applyOp c op)
    refine ⟨?_, ?_, t1 ++ t2, ?_⟩
    · exact (show (applyOps (applyOp c op) ops).source_cls = _ from g1).trans h1
    · exact (show (applyOps (applyOp c op) ops).target_cls = _ from g2).trans h2
    · show (applyOps (applyOp c op) ops).lines = _
      rw [g3, h3, List.append_assoc]

/-- Claim C10: the statement list grows append-only under every builder
call, the first two lines always remain the `convert` header and the
empty-dict initialisation, and the finalized source text is exactly the
accumulated lines followed by the single return statement. -/
theorem builder_lines_append_only :
    (∀ (c : MappingMethodSourceCode) (op : BuilderOp),
      ∃ tail, (applyOp c op).lines = c.lines ++ tail)
    ∧ (∀ (S T : ClassMeta) (ops : List BuilderOp),
      ∃ stmts, (applyOps (MappingMethodSourceCode.init S T) ops).lines
        = [Line.defConvert T.name, Line.dInit] ++ stmts)
    ∧ (∀ (S T : ClassMeta) (ops : List BuilderOp),
      (applyOps (MappingMethodSourceCode.init S T) ops).toStr
        = String.intercalate "\n"
            ((applyOps (MappingMethodSourceCode.init S T) ops).lines.map Line.render
              ++ ["    return " ++ T.alias_name ++ "(**d)"])) := by
  refine ⟨fun c op => (applyOp_spec c op).2.2, fun S T ops => ?_, fun S T ops => ?_⟩
  · obtain ⟨-, -, tail, h⟩ := applyOps_spec (MappingMethodSourceCode.init S T) ops
    exact ⟨tail, h⟩
  · obtain ⟨-, h2, -⟩ := applyOps_spec (MappingMethodSourceCode.init S T) ops
    rw [MappingMethodSourceCode.toStr, h2]
    rfl

/-- Claim C7: the finalized method is the `convert` header accepting the
source instance, the dict initialisation, the accumulated statements, and
one final return statement constructing the target through its alias
name; running it executes the emitted statements to build `d` and
constructs the target from `d`'s entries. -/
theorem finalize_wraps_statements (S T : ClassMeta) (ops : List BuilderOp)
    (env : MapEnv) (inst : Inst) :
    ∃ stmts,
      (applyOps (MappingMethodSourceCode.init S T) ops).lines
        = Line.defConvert T.name :: Line.dInit :: stmts
      ∧ (applyOps (MappingMethodSourceCode.init S T) ops).toStr
          = String.intercalate "\n"
              (Line.render (Line.defConvert T.name) :: Line.render Line.dInit
                :: stmts.map Line.render
                ++ ["    return " ++ T.alias_name ++ "(**d)"])
      ∧ runConvert env (applyOps (MappingMethodSourceCode.init S T) ops) inst
          = (execLines env (applyOps (MappingMethodSourceCode.init S T) ops).methods inst
              (Line.defConvert T.name :: Line.dInit :: stmts) []).map
              (fun d => { ctor := T.alias_name, kwargs := d }) := by
  obtain ⟨h1, h2, tail, h3⟩ := applyOps_spec (MappingMethodSourceCode.init S T) ops
  refine ⟨tail, by simpa using h3, ?_, ?_⟩
  · rw [MappingMethodSourceCode.toStr, h3, h2]
    rfl
  · rw [runConvert, h3, h2]
    rfl

/-- Lookup of a bound key ignores appended registrations. -/
theorem lookup_append_left {β : Type} (k : String) (xs ys : List (String × β))
    (h : (List.lookup k xs).isSome = true) :
    List.lookup k (xs ++ ys) = List.lookup k xs := by
  induction xs with
  | nil => simp at h
  | cons p xs ih =>
    cases p with
    | mk a b =>
      cases hk : (k == a) with
      | true => simp [List.lookup, hk]
      | false =>
        simp only [List.lookup, hk] at h
        simpa only [List.cons_append, List.lookup, hk] using ih h

/-- Lookup of a different key in a singleton registry fails. -/
theorem lookup_singleton_ne {β : Type} (k k' : String) (b : β) (h : ¬k = k') :
    List.lookup k [(k', b)] = Option.none := by
  have hk : (k == k') = false := beq_eq_false_iff_ne.mpr h
  simp [List.lookup, hk]

/-- Expression alignment survives appending registrations to both
registries. -/
theorem exprAligned_mono (ms1 ms2 d1 d2 : List (String × RegMethod)) (e1 e2 : PExpr)
    (h : ExprAligned ms1 ms2 e1 e2) :
    ExprAligned (ms1 ++ d1) (ms2 ++ d2) e1 e2 := by
  induction h with
  | selfField n => exact .selfField n
  | mapToField n fn => exact .mapToField n fn
  | listComp fn n => exact .listComp fn n
  | callSelf n1 n2 hl hs =>
    have hs2 : (List.lookup n2 ms2).isSome = true := by rw [← hl]; exact hs
    refine .callSelf n1 n2 ?_ ?_
    · rw [lookup_append_left _ _ _ hs, lookup_append_left _ _ _ hs2]
      exact hl
    · rw [lookup_append_left _ _ _ hs]; exact hs
  | noneGuard n e1 e2 h ih => exact .noneGuard n _ _ ih

/-- Line alignment survives appending registrations to both registries. -/
theorem lineAligned_mono (ms1 ms2 d1 d2 : List (String × RegMethod)) (l1 l2 : Line)
    (h : LineAligned ms1 ms2 l1 l2) :
    LineAligned (ms1 ++ d1) (ms2 ++ d2) l1 l2 := by
  cases h with
  | defConvert tn => exact .defConvert tn
  | dInit => exact .dInit
  | ifNotNone n => exact .ifNotNone n
  | ifSet n => exact .ifSet n
  | assign i k r1 r2 he => exact .assign i k r1 r2 (exprAligned_mono ms1 ms2 d1 d2 r1 r2 he)

/-- Line-list alignment survives appending registrations to both
registries. -/
theorem linesAligned_mono (ms1 ms2 d1 d2 : List (String × RegMethod))
    (ls1 ls2 : List Line) (h : LinesAligned ms1 ms2 ls1 ls2) :
    LinesAligned (ms1 ++ d1) (ms2 ++ d2) ls1 ls2 := by
  induction h with
  | nil => exact .nil
  | cons l1 l2 ls1 ls2 hl hls ih =>
    exact .cons l1 l2 ls1 ls2 (lineAligned_mono ms1 ms2 d1 d2 l1 l2 hl) ih

/-- A helper-free expression is aligned with itself under any pair of
registries. -/
theorem exprAligned_same_of_callFree (ms1 ms2 : List (String × RegMethod)) :
    ∀ (e : PExpr), e.callFree = true → ExprAligned ms1 ms2 e e := by
  intro e
  induction e with
  | selfField n => intro; exact .selfField n
  | mapToField n fn => intro; exact .mapToField n fn
  | listComp fn n => intro; exact .listComp fn n
  | noneGuard n e ih =>
    intro h
    exact .noneGuard n e e (ih (by simpa [PExpr.callFree] using h))
  | callSelf m => intro h; simp [PExpr.callFree] at h

/-- A helper-free line is aligned with itself under any pair of
registries. -/
theorem lineAligned_same_of_callFree (ms1 ms2 : List (String × RegMethod)) :
    ∀ (l : Line), l.callFree = true → LineAligned ms1 ms2 l l := by
  intro l
  cases l with
  | defConvert tn => intro; exact .defConvert tn
  | dInit => intro; exact .dInit
  | ifNotNone n => intro; exact .ifNotNone n
  | ifSet n => intro; exact .ifSet n
  | assign i k r =>
    intro h
    exact .assign i k r r (exprAligned_same_of_callFree ms1 ms2 r
      (by simpa [Line.callFree] using h))

/-- A list of helper-free lines is aligned with itself under any pair of
registries. -/
theorem linesAligned_same_of_callFree (ms1 ms2 : List (String × RegMethod)) :
    ∀ (ls : List Line), (∀ l ∈ ls, l.callFree = true) → LinesAligned ms1 ms2 ls ls := by
  intro ls
  induction ls with
  | nil => intro; exact .nil
  | cons l ls ih =>
    intro h
    exact .cons l l ls ls
      (lineAligned_same_of_callFree ms1 ms2 l (h l (List.mem_cons_self l ls)))
      (ih fun w hw => h w (List.mem_cons_of_mem _ hw))

/-- Alignment of line lists is compatible with concatenation. -/
theorem LinesAligned.append (ms1 ms2 : List (String × RegMethod))
    (as bs cs ds : List Line) (h1 : LinesAligned ms1 ms2 as bs)
    (h2 : LinesAligned ms1 ms2 cs ds) :
    LinesAligned ms1 ms2 (as ++ cs) (bs ++ ds) := by
  induction h1 with
  | nil => simpa using h2
  | cons l1 l2 ls1 ls2 hl hls ih =>
    exact .cons l1 l2 _ _ hl ih

/-- Aligned expressions evaluate identically under their respective
registries. -/
theorem evalPExpr_aligned (env : MapEnv) (inst : Inst)
    (ms1 ms2 : List (String × RegMethod)) (e1 e2 : PExpr)
    (h : ExprAligned ms1 ms2 e1 e2) :
    evalPExpr env ms1 inst e1 = evalPExpr env ms2 inst e2 := by
  induction h with
  | selfField n => rfl
  | mapToField n fn => rfl
  | listComp fn n => rfl
  | callSelf n1 n2 hl hs => simp only [evalPExpr, hl]
  | noneGuard n e1 e2 h ih => simp only [evalPExpr, ih]

/-- Aligned line lists execute identically under their respective
registries. -/
theorem execLines_aligned (env : MapEnv) (inst : Inst)
    (ms1 ms2 : List (String × RegMethod)) :
    ∀ (n : Nat) (ls1 ls2 : List Line) (d : List (String × Value)),
    ls1.length ≤ n →
    LinesAligned ms1 ms2 ls1 ls2 →
    execLines env ms1 inst ls1 d = execLines env ms2 inst ls2 d := by
  intro n
  induction n with
  | zero =>
    intro ls1 ls2 d hlen hal
    cases hal with
    | nil => rfl
    | cons l1 l2 t1 t2 h ht => simp at hlen
  | succ n ih =>
    intro ls1 ls2 d hlen hal
    cases hal with
    | nil => rfl
    | cons l1 l2 t1 t2 hl htl =>
      have hlen' : t1.length ≤ n := by simpa using hlen
      cases hl with
      | defConvert tn =>
        simp only [execLines]
        exact ih t1 t2 d hlen' htl
      | dInit =>
        simp only [execLines]
        exact ih t1 t2 [] hlen' htl
      | assign i k r1 r2 he =>
        simp only [execLines]
        rw [evalPExpr_aligned env inst ms1 ms2 r1 r2 he]
        cases evalPExpr env ms2 inst r2 with
        | none => rfl
        | some v => exact ih t1 t2 (setKey d k v) hlen' htl
      | ifNotNone m =>
        cases htl with
        | nil => rfl
        | cons l1' l2' t1' t2' hl' htl' =>
          have hlen'' : t1'.length ≤ n := by simp at hlen; omega
          cases hl' with
          | assign i k r1 r2 he =>
            simp only [execLines]
            cases inst.attr m with
            | none => rfl
            | some v =>
              cases hv : v.isNone with
              | true => simpa [hv] using ih t1' t2' d hlen'' htl'
              | false =>
                simp only [Option.bind, hv, if_false]
                rw [evalPExpr_aligned env inst ms1 ms2 r1 r2 he]
                cases evalPExpr env ms2 inst r2 with
                | none => rfl
                | some w => exact ih t1' t2' (setKey d k w) hlen'' htl'
          | defConvert tn =>
            simp only [execLines]
            cases inst.attr m with
            | none => rfl
            | some v =>
              exact ih t1' t2' d hlen'' htl'
          | dInit =>
            simp only [execLines]
            cases inst.attr m with
            | none => rfl
            | some v => exact ih t1' t2' [] hlen'' htl'
          | ifNotNone m' =>
            simp only [execLines]
            cases inst.attr m with
            | none => rfl
            | some v =>
              exact ih (Line.ifNotNone m' :: t1') (Line.ifNotNone m' :: t2') d
                (by simpa using hlen') (.cons _ _ _ _ (.ifNotNone m') htl')
          | ifSet m' =>
            simp only [execLines]
            cases inst.attr m with
            | none => rfl
            | some v =>
              exact ih (Line.ifSet m' :: t1') (Line.ifSet m' :: t2') d
                (by simpa using hlen') (.cons _ _ _ _ (.ifSet m') htl')
      | ifSet m =>
        cases htl with
        | nil => rfl
        | cons l1' l2' t1' t2' hl' htl' =>
          have hlen'' : t1'.length ≤ n := by simp at hlen; omega
          cases hl' with
          | assign i k r1 r2 he =>
            simp only [execLines]
            by_cases hm : m ∈ inst.fields_set
            · simp only [hm, if_true]
              rw [evalPExpr_aligned env inst ms1 ms2 r1 r2 he]
              cases evalPExpr env ms2 inst r2 with
              | none => rfl
              | some w => exact ih t1' t2' (setKey d k w) hlen'' htl'
            · simp only [hm, if_false]
              exact ih t1' t2' d hlen'' htl'
          | defConvert tn =>
            simp only [execLines]
            exact ih t1' t2' d hlen'' htl'
          | dInit =>
            simp only [execLines]
            exact ih t1' t2' [] hlen'' htl'
          | ifNotNone m' =>
            simp only [execLines]
            exact ih (Line.ifNotNone m' :: t1') (Line.ifNotNone m' :: t2') d
              (by simpa using hlen') (.cons _ _ _ _ (.ifNotNone m') htl')
          | ifSet m' =>
            simp only [execLines]
            exact ih (Line.ifSet m' :: t1') (Line.ifSet m' :: t2') d
              (by simpa using hlen') (.cons _ _ _ _ (.ifSet m') htl')

/-- A field-origin `add_mapping` call behaves identically on two builders
over the same classes: it raises the same error on both, or appends the
same helper-free line suffix to both, leaving the registries untouched. -/
theorem add_mapping_field_step (ha : PType → String → Bool)
    (c1 c2 : MappingMethodSourceCode) (t s : FieldMeta) (hex1 hex2 : String)
    (hS : c1.source_cls = c2.source_cls) (hT : c1.target_cls = c2.target_cls) :
    (∃ e, c1.add_mapping ha t (.field s) hex1 = .error e
        ∧ c2.add_mapping ha t (.field s) hex2 = .error e)
    ∨ (∃ L, L.all Line.callFree = true
        ∧ c1.add_mapping ha t (.field s) hex1 = .ok { c1 with lines := c1.lines ++ L }
        ∧ c2.add_mapping ha t (.field s) hex2 = .ok { c2 with lines := c2.lines ++ L }) := by
  by_cases h1 : t.type = s.type ∧ ¬(s.allow_none = true ∧ t.disallow_none = true)
  · by_cases hA : s.allow_none = true ∧ t.allow_none = true ∧ ¬t.required = true
        ∧ c1.source_cls._type = c1.target_cls._type
        ∧ c1.target_cls._type = DataclassType.PYDANTIC
    · have hA2 : s.allow_none = true ∧ t.allow_none = true ∧ ¬t.required = true
          ∧ c2.source_cls._type = c2.target_cls._type
          ∧ c2.target_cls._type = DataclassType.PYDANTIC := by
        rw [← hS, ← hT]; exact hA
      refine Or.inr ⟨[.ifSet s.name, .assign 8 t.name (.selfField s.name)], rfl, ?_, ?_⟩
      · simp only [MappingMethodSourceCode.add_mapping]
        rw [if_pos h1, if_pos hA]
        simp [MappingMethodSourceCode.add_assignment]
      · simp only [MappingMethodSourceCode.add_mapping]
        rw [if_pos h1, if_pos hA2]
        simp [MappingMethodSourceCode.add_assignment]
    · have hA2 : ¬(s.allow_none = true ∧ t.allow_none = true ∧ ¬t.required = true
          ∧ c2.source_cls._type = c2.target_cls._type
          ∧ c2.target_cls._type = DataclassType.PYDANTIC) := by
        rw [← hS, ← hT]; exact hA
      refine Or.inr ⟨[.assign 4 t.name (.selfField s.name)], rfl, ?_, ?_⟩
      · simp only [MappingMethodSourceCode.add_mapping]
        rw [if_pos h1, if_neg hA]
        simp [MappingMethodSourceCode.add_assignment]
      · simp only [MappingMethodSourceCode.add_mapping]
        rw [if_pos h1, if_neg hA2]
        simp [MappingMethodSourceCode.add_assignment]
  · by_cases h2 : t.type = s.type ∧ s.allow_none = true ∧ t.disallow_none = true
        ∧ ¬t.required = true
    · refine Or.inr ⟨[.ifNotNone s.name, .assign 8 t.name (.selfField s.name)], rfl, ?_, ?_⟩
      · simp only [MappingMethodSourceCode.add_mapping]
        rw [if_neg h1, if_pos h2]
        simp [MappingMethodSourceCode.add_assignment]
      · simp only [MappingMethodSourceCode.add_mapping]
        rw [if_neg h1, if_pos h2]
        simp [MappingMethodSourceCode.add_assignment]
    · by_cases h3 : MappingMethodSourceCode.is_mappable_to ha s.type t.type = true
          ∧ ¬(s.allow_none = true ∧ t.disallow_none = true)
      · by_cases hB : s.allow_none = true ∧ t.allow_none = true ∧ ¬t.required = true
            ∧ c1.source_cls._type = c1.target_cls._type
            ∧ c1.target_cls._type = DataclassType.PYDANTIC
        · have hB2 : s.allow_none = true ∧ t.allow_none = true ∧ ¬t.required = true
              ∧ c2.source_cls._type = c2.target_cls._type
              ∧ c2.target_cls._type = DataclassType.PYDANTIC := by
            rw [← hS, ← hT]; exact hB
          refine Or.inr ⟨[.ifSet s.name, .assign 8 t.name
            (.noneGuard s.name (.mapToField s.name (get_map_to_func_name t.type)))],
            rfl, ?_, ?_⟩
          · simp only [MappingMethodSourceCode.add_mapping]
            rw [if_neg h1, if_neg h2, if_pos h3, if_pos hB]
            simp [MappingMethodSourceCode.add_recursive]
          · simp only [MappingMethodSourceCode.add_mapping]
            rw [if_neg h1, if_neg h2, if_pos h3, if_pos hB2]
            simp [MappingMethodSourceCode.add_recursive]
        · have hB2 : ¬(s.allow_none = true ∧ t.allow_none = true ∧ ¬t.required = true
              ∧ c2.source_cls._type = c2.target_cls._type
              ∧ c2.target_cls._type = DataclassType.PYDANTIC) := by
            rw [← hS, ← hT]; exact hB
          cases hsan : s.allow_none with
          | true =>
            refine Or.inr ⟨[.assign 4 t.name
              (.noneGuard s.name (.mapToField s.name (get_map_to_func_name t.type)))],
              rfl, ?_, ?_⟩
            · simp only [MappingMethodSourceCode.add_mapping]
              rw [if_neg h1, if_neg h2, if_pos h3, if_neg hB]
              simp [MappingMethodSourceCode.add_recursive, hsan]
            · simp only [MappingMethodSourceCode.add_mapping]
              rw [if_neg h1, if_neg h2, if_pos h3, if_neg hB2]
              simp [MappingMethodSourceCode.add_recursive, hsan]
          | false =>
            refine Or.inr ⟨[.assign 4 t.name
              (.mapToField s.name (get_map_to_func_name t.type))], rfl, ?_, ?_⟩
            · simp only [MappingMethodSourceCode.add_mapping]
              rw [if_neg h1, if_neg h2, if_pos h3, if_neg hB]
              simp [MappingMethodSourceCode.add_recursive, hsan]
            · simp only [MappingMethodSourceCode.add_mapping]
              rw [if_neg h1, if_neg h2, if_pos h3, if_neg hB2]
              simp [MappingMethodSourceCode.add_recursive, hsan]
      · by_cases h4 : s.type.isList = true ∧ t.type.isList = true
            ∧ MappingMethodSourceCode.is_mappable_to ha s.type.arg0 t.type.arg0 = true
            ∧ ¬(s.allow_none = true ∧ t.disallow_none = true)
        · by_cases hC : s.allow_none = true ∧ t.allow_none = true ∧ ¬t.required = true
              ∧ c1.source_cls._type = c1.target_cls._type
              ∧ c1.target_cls._type = DataclassType.PYDANTIC
          · have hC2 : s.allow_none = true ∧ t.allow_none = true ∧ ¬t.required = true
                ∧ c2.source_cls._type = c2.target_cls._type
                ∧ c2.target_cls._type = DataclassType.PYDANTIC := by
              rw [← hS, ← hT]; exact hC
            refine Or.inr ⟨[.ifSet s.name, .assign 8 t.name
              (.noneGuard s.name (.listComp (get_map_to_func_name t.type.arg0) s.name))],
              rfl, ?_, ?_⟩
            · simp only [MappingMethodSourceCode.add_mapping]
              rw [if_neg h1, if_neg h2, if_neg h3, if_pos h4, if_pos hC]
              simp [MappingMethodSourceCode.add_recursive_list, hC.1]
            · simp only [MappingMethodSourceCode.add_mapping]
              rw [if_neg h1, if_neg h2, if_neg h3, if_pos h4, if_pos hC2]
              simp [MappingMethodSourceCode.add_recursive_list, hC.1]
          · have hC2 : ¬(s.allow_none = true ∧ t.allow_none = true ∧ ¬t.required = true
                ∧ c2.source_cls._type = c2.target_cls._type
                ∧ c2.target_cls._type = DataclassType.PYDANTIC) := by
              rw [← hS, ← hT]; exact hC
            cases hsan : s.allow_none with
            | true =>
              refine Or.inr ⟨[.assign 4 t.name
                (.noneGuard s.name (.listComp (get_map_to_func_name t.type.arg0) s.name))],
                rfl, ?_, ?_⟩
              · simp only [MappingMethodSourceCode.add_mapping]
                rw [if_neg h1, if_neg h2, if_neg h3, if_pos h4, if_neg hC]
                simp [MappingMethodSourceCode.add_recursive_list, hsan]
              · simp only [MappingMethodSourceCode.add_mapping]
                rw [if_neg h1, if_neg h2, if_neg h3, if_pos h4, if_neg hC2]
                simp [MappingMethodSourceCode.add_recursive_list, hsan]
            | false =>
              refine Or.inr ⟨[.assign 4 t.name
                (.listComp (get_map_to_func_name t.type.arg0) s.name)], rfl, ?_, ?_⟩
              · simp only [MappingMethodSourceCode.add_mapping]
                rw [if_neg h1, if_neg h2, if_neg h3, if_pos h4, if_neg hC]
                simp [MappingMethodSourceCode.add_recursive_list, hsan]
              · simp only [MappingMethodSourceCode.add_mapping]
                rw [if_neg h1, if_neg h2, if_neg h3, if_pos h4, if_neg hC2]
                simp [MappingMethodSourceCode.add_recursive_list, hsan]
        · by_cases h5 : s.type.isList = true ∧ t.type.isList = true
              ∧ MappingMethodSourceCode.is_mappable_to ha s.type.arg0 t.type.arg0 = true
              ∧ s.allow_none = true ∧ t.disallow_none = true ∧ ¬t.required = true
          · refine Or.inr ⟨[.ifNotNone s.name, .assign 8 t.name
              (.noneGuard s.name (.listComp (get_map_to_func_name t.type.arg0) s.name))],
              rfl, ?_, ?_⟩
            · simp only [MappingMethodSourceCode.add_mapping]
              rw [if_neg h1, if_neg h2, if_neg h3, if_neg h4, if_pos h5]
              simp [MappingMethodSourceCode.add_recursive_list, h5.2.2.2.1]
            · simp only [MappingMethodSourceCode.add_mapping]
              rw [if_neg h1, if_neg h2, if_neg h3, if_neg h4, if_pos h5]
              simp [MappingMethodSourceCode.add_recursive_list, h5.2.2.2.1]
          · refine Or.inl ⟨s.str ++ " of \x27" ++ c1.source_cls.name
              ++ "\x27 cannot be converted to " ++ t.str, ?_, ?_⟩
            · simp only [MappingMethodSourceCode.add_mapping]
              rw [if_neg h1, if_neg h2, if_neg h3, if_neg h4, if_neg h5]
            · simp only [MappingMethodSourceCode.add_mapping]
              rw [if_neg h1, if_neg h2, if_neg h3, if_neg h4, if_neg h5, ← hS]

/-- Two synthesis runs over the same class pair, field pairs and origins,
differing only in the drawn helper names, produce aligned results —
provided each run's names are mutually distinct and unused. -/
theorem buildMappingsAux_aligned (ha : PType → String → Bool) :
    ∀ (pairs : List (FieldMeta × MappingMethodSourceCode.Origin))
      (c1 c2 : MappingMethodSourceCode) (ns1 ns2 : List String),
    c1.source_cls = c2.source_cls → c1.target_cls = c2.target_cls →
    LinesAligned c1.methods c2.methods c1.lines c2.lines →
    pairs.length ≤ ns1.length → pairs.length ≤ ns2.length →
    ((ns1.take pairs.length).map (fun n => "_" ++ n)).Nodup →
    (∀ n ∈ ns1.take pairs.length, List.lookup ("_" ++ n) c1.methods = Option.none) →
    ((ns2.take pairs.length).map (fun n => "_" ++ n)).Nodup →
    (∀ n ∈ ns2.take pairs.length, List.lookup ("_" ++ n) c2.methods = Option.none) →
    ResultAligned (buildMappingsAux ha c1 pairs ns1) (buildMappingsAux ha c2 pairs ns2) := by
  intro pairs
  induction pairs with
  | nil =>
    intro c1 c2 ns1 ns2 hS hT hal _ _ _ _ _ _
    exact ⟨hS, hT, hal⟩
  | cons p ps ih =>
    obtain ⟨t, o⟩ := p
    intro c1 c2 ns1 ns2 hS hT hal hlen1 hlen2 hnd1 hfr1 hnd2 hfr2
    cases ns1 with
    | nil => simp at hlen1
    | cons n1 ns1' =>
      cases ns2 with
      | nil => simp at hlen2
      | cons n2 ns2' =>
        simp only [List.length_cons] at hnd1 hfr1 hnd2 hfr2
        rw [List.take_succ_cons] at hnd1 hfr1 hnd2 hfr2
        rw [List.map_cons, List.nodup_cons] at hnd1 hnd2
        have hk1 : List.lookup ("_" ++ n1) c1.methods = Option.none :=
          hfr1 n1 (List.mem_cons_self _ _)
        have hk2 : List.lookup ("_" ++ n2) c2.methods = Option.none :=
          hfr2 n2 (List.mem_cons_self _ _)
        cases o with
        | func f =>
          obtain ⟨m, hm⟩ : ∃ m : RegMethod, ∀ (c : MappingMethodSourceCode) (hex : String),
              (c.add_function_call t f hex).methods = c.methods ++ [("_" ++ hex, m)] := by
            cases f <;> exact ⟨_, fun c hex => rfl⟩
          have hln : ∀ (c : MappingMethodSourceCode) (hex : String),
              (c.add_function_call t f hex).lines
                = c.lines ++ [.assign 4 t.name (.callSelf ("_" ++ hex))] := by
            cases f <;> exact fun c hex => rfl
          have halnew : LinesAligned (c1.add_function_call t f n1).methods
              (c2.add_function_call t f n2).methods
              (c1.add_function_call t f n1).lines (c2.add_function_call t f n2).lines := by
            rw [hln c1 n1, hln c2 n2, hm c1 n1, hm c2 n2]
            refine LinesAligned.append _ _ _ _ _ _
              (linesAligned_mono _ _ _ _ _ _ hal) (.cons _ _ _ _ (.assign 4 t.name _ _
                (.callSelf _ _ ?_ ?_)) .nil)
            · rw [lookup_append_self _ _ _ hk1, lookup_append_self _ _ _ hk2]
            · rw [lookup_append_self _ _ _ hk1]; rfl
          have hfr1' : ∀ n ∈ ns1'.take ps.length,
              List.lookup ("_" ++ n) (c1.add_function_call t f n1).methods
                = Option.none := by
            intro n hn
            have hne : ¬("_" ++ n) = ("_" ++ n1) := by
              intro he
              exact hnd1.1 (he ▸ List.mem_map_of_mem (fun n => "_" ++ n) hn)
            rw [hm c1 n1,
              lookup_append_right _ _ _ (hfr1 n (List.mem_cons_of_mem _ hn))]
            exact lookup_singleton_ne _ _ _ hne
          have hfr2' : ∀ n ∈ ns2'.take ps.length,
              List.lookup ("_" ++ n) (c2.add_function_call t f n2).methods
                = Option.none := by
            intro n hn
            have hne : ¬("_" ++ n) = ("_" ++ n2) := by
              intro he
              exact hnd2.1 (he ▸ List.mem_map_of_mem (fun n => "_" ++ n) hn)
            rw [hm c2 n2,
              lookup_append_right _ _ _ (hfr2 n (List.mem_cons_of_mem _ hn))]
            exact lookup_singleton_ne _ _ _ hne
          exact ih (c1.add_function_call t f n1) (c2.add_function_call t f n2) ns1' ns2'
            hS hT halnew (by simpa using hlen1) (by simpa using hlen2)
            hnd1.2 hfr1' hnd2.2 hfr2'
        | field s =>
          rcases add_mapping_field_step ha c1 c2 t s n1 n2 hS hT with
            ⟨e, he1, he2⟩ | ⟨L, hcf, hk1', hk2'⟩
          · show ResultAligned
              (match c1.add_mapping ha t (.field s) ((n1 :: ns1').headD "") with
                | .ok c => buildMappingsAux ha c ps (n1 :: ns1').tail
                | .error e => .error e)
              (match c2.add_mapping ha t (.field s) ((n2 :: ns2').headD "") with
                | .ok c => buildMappingsAux ha c ps (n2 :: ns2').tail
                | .error e => .error e)
            rw [List.headD_cons, List.headD_cons, he1, he2]
            rfl
          · show ResultAligned
              (match c1.add_mapping ha t (.field s) ((n1 :: ns1').headD "") with
                | .ok c => buildMappingsAux ha c ps (n1 :: ns1').tail
                | .error e => .error e)
              (match c2.add_mapping ha t (.field s) ((n2 :: ns2').headD "") with
                | .ok c => buildMappingsAux ha c ps (n2 :: ns2').tail
                | .error e => .error e)
            rw [List.headD_cons, List.headD_cons, hk1', hk2']
            have halnew : LinesAligned c1.methods c2.methods
                (c1.lines ++ L) (c2.lines ++ L) :=
              LinesAligned.append _ _ _ _ _ _ hal
                (linesAligned_same_of_callFree _ _ L
                  (fun l hl => List.all_eq_true.mp hcf l hl))
            exact ih { c1 with lines := c1.lines ++ L } { c2 with lines := c2.lines ++ L }
              ns1' ns2' hS hT halnew (by simpa using hlen1) (by simpa using hlen2)
              hnd1.2 (fun n hn => hfr1 n (List.mem_cons_of_mem _ hn))
              hnd2.2 (fun n hn => hfr2 n (List.mem_cons_of_mem _ hn))

/-- Claim C9: synthesizing the same (source class, target class, field
pairs and origins) twice — with possibly different generated helper
identifiers, each run's identifiers being fresh and mutually distinct —
produces routines with identical observable mapping behavior: the same
raised error, or, for every source instance, the same constructed
target. -/
theorem synthesis_deterministic
    (ha : PType → String → Bool) (S T : ClassMeta)
    (pairs : List (FieldMeta × MappingMethodSourceCode.Origin))
    (ns1 ns2 : List String) (env : MapEnv) (inst : Inst)
    (hlen1 : pairs.length ≤ ns1.length) (hlen2 : pairs.length ≤ ns2.length)
    (hnd1 : ((ns1.take pairs.length).map (fun n => "_" ++ n)).Nodup)
    (hnd2 : ((ns2.take pairs.length).map (fun n => "_" ++ n)).Nodup) :
    (buildMappings ha S T pairs ns1).map (fun c => runConvert env c inst)
      = (buildMappings ha S T pairs ns2).map (fun c => runConvert env c inst) := by
  have hinit : LinesAligned [] [] (MappingMethodSourceCode.init S T).lines
      (MappingMethodSourceCode.init S T).lines := by
    refine linesAligned_same_of_callFree _ _ _ ?_
    intro l hl
    simp only [MappingMethodSourceCode.init, List.mem_cons, List.not_mem_nil,
      or_false] at hl
    rcases hl with rfl | rfl <;> rfl
  have h := buildMappingsAux_aligned ha pairs (MappingMethodSourceCode.init S T)
    (MappingMethodSourceCode.init S T) ns1 ns2 rfl rfl hinit hlen1 hlen2
    hnd1 (fun n _ => rfl) hnd2 (fun n _ => rfl)
  show (buildMappingsAux ha (MappingMethodSourceCode.init S T) pairs ns1).map
      (fun c => runConvert env c inst)
    = (buildMappingsAux ha (MappingMethodSourceCode.init S T) pairs ns2).map
      (fun c => runConvert env c inst)
  cases e1 : buildMappingsAux ha (MappingMethodSourceCode.init S T) pairs ns1 with
  | error s1 =>
    cases e2 : buildMappingsAux ha (MappingMethodSourceCode.init S T) pairs ns2 with
    | error s2 =>
      rw [e1, e2] at h
      have hss : s1 = s2 := h
      rw [hss]
    | ok d2 =>
      rw [e1, e2] at h
      exact h.elim
  | ok d1 =>
    cases e2 : buildMappingsAux ha (MappingMethodSourceCode.init S T) pairs ns2 with
    | error s2 =>
      rw [e1, e2] at h
      exact h.elim
    | ok d2 =>
      rw [e1, e2] at h
      obtain ⟨hsc, htc, hal⟩ := h
      simp only [Except.map]
      rw [runConvert, runConvert, htc,
        execLines_aligned env inst d1.methods d2.methods d1.lines.length
          d1.lines d2.lines [] (Nat.le_refl _) hal]

/-- Witness for C9: two runs over the same two field pairs — one routed
through a zero-parameter callable — with different helper names produce
the same observable result. -/
theorem synthesis_deterministic_witness :
    ((((["aa", "bb"] : List String).take 2).map (fun n => "_" ++ n)).Nodup)
    ∧ (buildMappings exNoAttr exPydFoo exPydBar
          [(⟨"z", .scalar "int", false, true⟩, .func (.fn0 fun _ => Value.int 7)),
            (exFieldX, .field exFieldX)] ["aa", "bb"]).map
          (fun c => runConvert exIdEnv c exInst)
        = (buildMappings exNoAttr exPydFoo exPydBar
          [(⟨"z", .scalar "int", false, true⟩, .func (.fn0 fun _ => Value.int 7)),
            (exFieldX, .field exFieldX)] ["cc", "dd"]).map
          (fun c => runConvert exIdEnv c exInst) :=
  ⟨by decide,
    synthesis_deterministic exNoAttr exPydFoo exPydBar
      [(⟨"z", .scalar "int", false, true⟩, .func (.fn0 fun _ => Value.int 7)),
        (exFieldX, .field exFieldX)] ["aa", "bb"] ["cc", "dd"] exIdEnv exInst
      (by decide) (by decide) (by decide) (by decide)⟩

end DataclassMapper
